import Mathlib

/-!
Shallow embedding of the two PyTorch tutorial notebooks
(`torch-use-gpu.ipynb` and `torch-test-model.ipynb`).

Numeric tensor entries are modelled as rationals.  Framework calls that can
raise an exception (CUDA unavailable, reshape with incompatible size,
missing weights file, out-of-range indexing, device mismatch between the
operands of an operation) are modelled as `Option`-returning operations;
the notebooks install no exception handler, so a `none` from a sub-operation
propagates to the final result unchanged.  The order in which the training
and evaluation loops invoke framework primitives is recorded as a list of
events.  The optimizer update performed by `loss.backward()` followed by
`optimizer.step()` is an opaque parameter `stepFn` (reimplementing autodiff
is explicitly out of scope for the repository); the softmax exponential is
likewise an opaque parameter `ex`.
-/

/-- A compute device: the CPU or a CUDA accelerator with an index. -/
inductive Device where
  | cpu : Device
  | cuda : Nat → Device
deriving DecidableEq, Repr

/-- The string picked by the conditional expression
`"cuda:0" if torch.cuda.is_available() else "cpu"` that appears in both
notebooks. -/
def deviceArg (cudaAvailable : Bool) : String :=
  match cudaAvailable with
  | true => "cuda:0"
  | false => "cpu"

/-- `torch.device(s)` on the two strings the notebooks can produce. -/
def torchDeviceOfString (s : String) : Option Device :=
  match s with
  | "cuda:0" => some (Device.cuda 0)
  | "cpu" => some Device.cpu
  | _ => none

/-- The `Device` value held by the notebooks' `device` variable:
`torch.device("cuda:0" if torch.cuda.is_available() else "cpu")`. -/
def chosenDevice (cudaAvailable : Bool) : Device :=
  match cudaAvailable with
  | true => Device.cuda 0
  | false => Device.cpu

/-- A value tagged with the device it currently resides on (a tensor, or a
tensor of labels). -/
structure Loc (α : Type) where
  val : α
  device : Device
deriving DecidableEq, Repr

/-- `t.to(device)`: move a tensor to a device.  The payload is unchanged. -/
def Loc.to {α : Type} (t : Loc α) (d : Device) : Loc α :=
  { t with device := d }

/-- `t.cuda()`: move a tensor to the first CUDA device; raises a framework
error when CUDA is unavailable. -/
def Loc.cuda {α : Type} (cudaAvailable : Bool) (t : Loc α) : Option (Loc α) :=
  match cudaAvailable with
  | true => some (t.to (Device.cuda 0))
  | false => none

/-- `torch.cuda.IntTensor(xs, device=d)`: construct a tensor directly on a
CUDA device; raises a framework error when CUDA is unavailable. -/
def cudaIntTensor (cudaAvailable : Bool) (xs : List Int) (d : Device) :
    Option (Loc (List Int)) :=
  match cudaAvailable with
  | true => some { val := xs, device := d }
  | false => none

/-- `X_train = torch.IntTensor([0, 30, 50, 75, 70])`: created on the CPU by
default. -/
def X_train : Loc (List Int) :=
  { val := [0, 30, 50, 75, 70], device := Device.cpu }

/-- A row vector of rational entries. -/
abbrev Vec := List ℚ

/-- A matrix as a list of rows. -/
abbrev Mat := List Vec

/-- Dot product of two rows (missing entries are ignored, as both arguments
always have matching length at call sites). -/
def dot (w x : Vec) : ℚ :=
  (List.zipWith (fun a b => a * b) w x).sum

/-- An `nn.Linear` module: the `in_features` / `out_features` attributes and
the `weight` (shape `(out_features, in_features)`) and `bias`
(shape `(out_features,)`) parameters. -/
structure LinearLayer where
  in_features : Nat
  out_features : Nat
  weight : Mat
  bias : Vec
deriving DecidableEq, Repr

/-- `nn.Linear(inF, outF)` with the framework's random initialization made
explicit as the functions `w` and `b`. -/
def nnLinear (inF outF : Nat) (w : Nat → Nat → ℚ) (b : Nat → ℚ) : LinearLayer :=
  { in_features := inF
    out_features := outF
    weight := (List.range outF).map (fun i => (List.range inF).map (fun j => w i j))
    bias := (List.range outF).map b }

/-- Application of a linear layer to one row: `weight @ x + bias`. -/
def LinearLayer.apply (l : LinearLayer) (x : Vec) : Vec :=
  List.zipWith (fun wRow bv => dot wRow x + bv) l.weight l.bias

/-- `F.relu` applied elementwise to one row. -/
def reluV (x : Vec) : Vec :=
  x.map (fun v => max v 0)

/-- `F.softmax(x, dim=1)` on one row, with the exponential left opaque as
`ex`. -/
def softmaxRow (ex : ℚ → ℚ) (x : Vec) : Vec :=
  x.map (fun v => ex v / (x.map ex).sum)

/-- `x.view(batchSize, -1)` on the flat data of a tensor: reshape into
`batchSize` rows, raising a framework error when the element count is not
divisible by `batchSize`. -/
def view (batchSize : Nat) (x : Vec) : Option Mat :=
  if batchSize ≠ 0 ∧ x.length % batchSize = 0 then
    some ((List.range batchSize).map (fun i =>
      (x.drop (i * (x.length / batchSize))).take (x.length / batchSize)))
  else none

/-- The two-layer network defined identically in both notebooks. -/
structure SimpleNet where
  fc1 : LinearLayer
  fc2 : LinearLayer
deriving DecidableEq, Repr

/-- `SimpleNet.__init__`: `fc1 = nn.Linear(784, 784)` and
`fc2 = nn.Linear(784, 10)`, with the framework's random initialization made
explicit. -/
def SimpleNet.init (w1 : Nat → Nat → ℚ) (b1 : Nat → ℚ)
    (w2 : Nat → Nat → ℚ) (b2 : Nat → ℚ) : SimpleNet :=
  { fc1 := nnLinear 784 784 w1 b1
    fc2 := nnLinear 784 10 w2 b2 }

/-- `SimpleNet.forward`, translated line by line:
`x = x.view(batch_size, -1); x = self.fc1(x); x = F.relu(x);
x = self.fc2(x); output = F.softmax(x, dim=1); return output`.
The surrounding global `batch_size` (100 in the training notebook, 1 in the
companion notebook) is the `batchSize` argument. -/
def SimpleNet.forward (ex : ℚ → ℚ) (batchSize : Nat) (net : SimpleNet)
    (x0 : Vec) : Option Mat :=
  match view batchSize x0 with
  | none => none
  | some x1 =>
    let x2 := x1.map (fun r => net.fc1.apply r)
    let x3 := x2.map (fun r => reluV r)
    let x4 := x3.map (fun r => net.fc2.apply r)
    let output := x4.map (fun r => softmaxRow ex r)
    some output

/-- A module's state dictionary: the four parameter tensors keyed
`fc1.weight`, `fc1.bias`, `fc2.weight`, `fc2.bias`. -/
structure StateDict where
  fc1_weight : Mat
  fc1_bias : Vec
  fc2_weight : Mat
  fc2_bias : Vec
deriving DecidableEq, Repr

/-- `model.state_dict()`. -/
def SimpleNet.state_dict (m : SimpleNet) : StateDict :=
  { fc1_weight := m.fc1.weight
    fc1_bias := m.fc1.bias
    fc2_weight := m.fc2.weight
    fc2_bias := m.fc2.bias }

/-- `model.load_state_dict(sd)`: overwrite the parameter tensors with the
entries of `sd`; the non-tensor attributes of the layers are untouched. -/
def SimpleNet.load_state_dict (m : SimpleNet) (sd : StateDict) : SimpleNet :=
  { fc1 := { m.fc1 with weight := sd.fc1_weight, bias := sd.fc1_bias }
    fc2 := { m.fc2 with weight := sd.fc2_weight, bias := sd.fc2_bias } }

/-- The whole `nn.Module` state the notebooks manipulate: the parameters,
the device they reside on, and the training-mode flag toggled by
`model.train()` / `model.eval()`. -/
structure TorchModule where
  net : SimpleNet
  device : Device
  training : Bool
deriving DecidableEq, Repr

/-- `SimpleNet()`: a fresh module, on the CPU, in training mode (the
framework defaults). -/
def simpleNetModule (w1 : Nat → Nat → ℚ) (b1 : Nat → ℚ)
    (w2 : Nat → Nat → ℚ) (b2 : Nat → ℚ) : TorchModule :=
  { net := SimpleNet.init w1 b1 w2 b2
    device := Device.cpu
    training := true }

/-- `model.to(device)`: move every parameter to `device` (in place for
modules); parameter values are unchanged. -/
def TorchModule.to (m : TorchModule) (d : Device) : TorchModule :=
  { m with device := d }

/-- `torch.save(sd, "mnist_fashion_SimpleNet.pt")`: the contents of the
weights file after saving.  Serialization itself is the framework's
contract: the file deserializes to the value that was saved. -/
def torchSave (sd : StateDict) : Option StateDict :=
  some sd

/-- `torch.load("mnist_fashion_SimpleNet.pt")` where the file system state
is `file` (`none` = the weights file is missing, which raises
`FileNotFoundError`). -/
def torchLoad (file : Option StateDict) : Option StateDict :=
  file

/-- The load cell of `torch-test-model.ipynb`:
`model.load_state_dict(torch.load("mnist_fashion_SimpleNet.pt"))` applied to
the freshly constructed module `m`. -/
def loadModelCell (m : TorchModule) (file : Option StateDict) :
    Option TorchModule :=
  match torchLoad file with
  | none => none
  | some sd => some { m with net := m.net.load_state_dict sd }

/-- Framework calls observable in the training and evaluation loops, in the
order the loops perform them. -/
inductive Ev where
  | epochStart : Nat → Ev
  | trainMode : Ev
  | evalMode : Ev
  | dataTo : Device → Ev
  | targetTo : Device → Ev
  | zeroGrad : Ev
  | forwardPass : Device → Device → Device → Ev
  | lossNll : Ev
  | backward : Ev
  | optStep : Ev
  | noGradEnter : Ev
  | noGradExit : Ev
deriving DecidableEq, Repr

/-- One `(data, target)` pair yielded by a data loader, each on some
device. -/
abbrev Batch := Loc Vec × Loc (List Nat)

/-- `F.nll_loss(output, target, reduction='sum')` on class-probability rows:
the negated sum of `output[i][target[i]]`. -/
def nllLossSum (output : Mat) (target : List Nat) : ℚ :=
  -(((output.zip target).map (fun p => p.1.getD p.2 0)).sum)

/-- `F.nll_loss(output, target)` with the default mean reduction. -/
def nllLossMean (output : Mat) (target : List Nat) : ℚ :=
  nllLossSum output target / ((output.zip target).length : ℚ)

/-- `row.argmax()`: index of the first maximal entry of a row (0 for an
empty row). -/
def argmaxIdx (v : Vec) : Nat :=
  ((v.enum.foldl (fun best p =>
      match best with
      | none => some p
      | some q => if p.2 > q.2 then some p else some q) none).map
    (fun p => p.1)).getD 0

/-- `pred.eq(target.view_as(pred)).sum().item()`: how many predicted class
indices match the target. -/
def countCorrect (preds : List Nat) (target : List Nat) : Nat :=
  ((preds.zip target).filter (fun p => p.1 == p.2)).length

/-- The body of the training loop for one batch, translated line by line:
`data, target = data.to(device), target.to(device)`;
`optimizer.zero_grad()`; `output = model(data)` (the framework raises when
the model's parameters and `data` are on different devices, and when the
reshape inside `forward` fails); `loss = F.nll_loss(output, target)` (the
framework raises when `output` and `target` are on different devices);
`loss.backward()`; `optimizer.step()` (the parameter update the optimizer
performs, abstracted as `stepFn`). -/
def trainBatch (ex : ℚ → ℚ) (bs : Nat)
    (stepFn : SimpleNet → Vec → List Nat → SimpleNet) (device : Device)
    (m : TorchModule) (b : Batch) : List Ev × Option TorchModule :=
  let data := b.1.to device
  let target := b.2.to device
  if m.device = data.device then
    match SimpleNet.forward ex bs m.net data.val with
    | none => ([Ev.dataTo device, Ev.targetTo device, Ev.zeroGrad], none)
    | some _ =>
      if m.device = target.device then
        ([Ev.dataTo device, Ev.targetTo device, Ev.zeroGrad,
          Ev.forwardPass m.device data.device target.device,
          Ev.lossNll, Ev.backward, Ev.optStep],
         some { m with net := stepFn m.net data.val target.val })
      else
        ([Ev.dataTo device, Ev.targetTo device, Ev.zeroGrad,
          Ev.forwardPass m.device data.device target.device], none)
  else ([Ev.dataTo device, Ev.targetTo device, Ev.zeroGrad], none)

/-- The `for batch_idx, (data, target) in tqdm(enumerate(train_loader))`
loop: run `trainBatch` on every batch in order, threading the module and
stopping at the first raised exception. -/
def trainLoop (ex : ℚ → ℚ) (bs : Nat)
    (stepFn : SimpleNet → Vec → List Nat → SimpleNet) (device : Device) :
    TorchModule → List Batch → List Ev × Option TorchModule
  | m, [] => ([], some m)
  | m, b :: rest =>
    match trainBatch ex bs stepFn device m b with
    | (tr, none) => (tr, none)
    | (tr, some m2) =>
      let next := trainLoop ex bs stepFn device m2 rest
      (tr ++ next.1, next.2)

/-- `train(model, device, train_loader, optimizer, epoch)`: `model.train()`
then the batch loop.  (The `print(device)` statement has no modelled
effect.) -/
def train (ex : ℚ → ℚ) (bs : Nat)
    (stepFn : SimpleNet → Vec → List Nat → SimpleNet) (device : Device)
    (m : TorchModule) (loader : List Batch) : List Ev × Option TorchModule :=
  let m1 := { m with training := true }
  match trainLoop ex bs stepFn device m1 loader with
  | (tr, r) => (Ev.trainMode :: tr, r)

/-- The body of the evaluation loop for one batch, translated line by line:
`data, target = data.to(device), target.to(device)`; `output = model(data)`;
`test_loss += F.nll_loss(output, target, reduction='sum').item()`;
`pred = output.argmax(dim=1, keepdim=True)`;
`correct += pred.eq(target.view_as(pred)).sum().item()`.
The accumulator is `(test_loss, correct)`. -/
def testBatch (ex : ℚ → ℚ) (bs : Nat) (device : Device) (m : TorchModule)
    (acc : ℚ × Nat) (b : Batch) : List Ev × Option (ℚ × Nat) :=
  let data := b.1.to device
  let target := b.2.to device
  if m.device = data.device then
    match SimpleNet.forward ex bs m.net data.val with
    | none => ([Ev.dataTo device, Ev.targetTo device], none)
    | some output =>
      if m.device = target.device then
        ([Ev.dataTo device, Ev.targetTo device,
          Ev.forwardPass m.device data.device target.device, Ev.lossNll],
         some (acc.1 + nllLossSum output target.val,
               acc.2 + countCorrect (output.map (fun r => argmaxIdx r)) target.val))
      else
        ([Ev.dataTo device, Ev.targetTo device,
          Ev.forwardPass m.device data.device target.device], none)
  else ([Ev.dataTo device, Ev.targetTo device], none)

/-- The `for data, target in test_loader` loop inside `torch.no_grad()`. -/
def testLoop (ex : ℚ → ℚ) (bs : Nat) (device : Device) (m : TorchModule) :
    ℚ × Nat → List Batch → List Ev × Option (ℚ × Nat)
  | acc, [] => ([], some acc)
  | acc, b :: rest =>
    match testBatch ex bs device m acc b with
    | (tr, none) => (tr, none)
    | (tr, some acc2) =>
      let next := testLoop ex bs device m acc2 rest
      (tr ++ next.1, next.2)

/-- The first cell defining `test(model, device, test_loader)`:
`model.eval()`; `test_loss = 0`; `correct = 0`;
`with torch.no_grad(): <batch loop>`;
`test_loss /= len(test_loader.dataset)`; then the print statement, whose
printed statistics are the returned values.  `torch.no_grad()` is a context
manager, so its exit runs even when the loop raises. -/
def test_v1 (ex : ℚ → ℚ) (bs : Nat) (device : Device) (m : TorchModule)
    (loader : List Batch) (datasetLen : Nat) :
    List Ev × Option (TorchModule × ℚ × Nat) :=
  let m1 := { m with training := false }
  match testLoop ex bs device m1 (0, 0) loader with
  | (tr, none) => (Ev.evalMode :: Ev.noGradEnter :: (tr ++ [Ev.noGradExit]), none)
  | (tr, some acc) =>
    (Ev.evalMode :: Ev.noGradEnter :: (tr ++ [Ev.noGradExit]),
     some (m1, acc.1 / (datasetLen : ℚ), acc.2))

/-- The second cell defining `test(model, device, test_loader)`, which
shadows the first.  Its code lines are those of the first cell; the cell
adds only comments. -/
def test_v2 (ex : ℚ → ℚ) (bs : Nat) (device : Device) (m : TorchModule)
    (loader : List Batch) (datasetLen : Nat) :
    List Ev × Option (TorchModule × ℚ × Nat) :=
  let m1 := { m with training := false }
  match testLoop ex bs device m1 (0, 0) loader with
  | (tr, none) => (Ev.evalMode :: Ev.noGradEnter :: (tr ++ [Ev.noGradExit]), none)
  | (tr, some acc) =>
    (Ev.evalMode :: Ev.noGradEnter :: (tr ++ [Ev.noGradExit]),
     some (m1, acc.1 / (datasetLen : ℚ), acc.2))

/-- `EPOCHS = 5`. -/
def EPOCHS : Nat := 5

/-- One iteration of the driver loop:
`print(f"EPOCH: {epoch}")`; `train(model, device, train_loader, optimizer,
epoch)`; `test(model, device, test_loader)` (the second, shadowing
definition of `test`). -/
def runEpoch (ex : ℚ → ℚ) (bs : Nat)
    (stepFn : SimpleNet → Vec → List Nat → SimpleNet) (device : Device)
    (trainLoader testLoader : List Batch) (datasetLen : Nat)
    (m : TorchModule) (epoch : Nat) : List Ev × Option TorchModule :=
  match train ex bs stepFn device m trainLoader with
  | (tr1, none) => (Ev.epochStart epoch :: tr1, none)
  | (tr1, some m1) =>
    match test_v2 ex bs device m1 testLoader datasetLen with
    | (tr2, none) => (Ev.epochStart epoch :: (tr1 ++ tr2), none)
    | (tr2, some res) => (Ev.epochStart epoch :: (tr1 ++ tr2), some res.1)

/-- The driver's iteration over a list of epoch numbers. -/
def epochLoop (ex : ℚ → ℚ) (bs : Nat)
    (stepFn : SimpleNet → Vec → List Nat → SimpleNet) (device : Device)
    (trainLoader testLoader : List Batch) (datasetLen : Nat) :
    TorchModule → List Nat → List Ev × Option TorchModule
  | m, [] => ([], some m)
  | m, e :: rest =>
    match runEpoch ex bs stepFn device trainLoader testLoader datasetLen m e with
    | (tr, none) => (tr, none)
    | (tr, some m1) =>
      let next := epochLoop ex bs stepFn device trainLoader testLoader datasetLen m1 rest
      (tr ++ next.1, next.2)

/-- The training driver cell: `for epoch in range(1, EPOCHS + 1): ...`. -/
def trainingDriver (ex : ℚ → ℚ) (bs : Nat)
    (stepFn : SimpleNet → Vec → List Nat → SimpleNet) (device : Device)
    (trainLoader testLoader : List Batch) (datasetLen : Nat)
    (m : TorchModule) : List Ev × Option TorchModule :=
  epochLoop ex bs stepFn device trainLoader testLoader datasetLen m
    (List.range' 1 EPOCHS)

/-- A shape-carrying tensor, for the rank-changing `squeeze` and the
indexing performed by `get_probs`. -/
structure Tens where
  shape : List Nat
  data : Vec
deriving DecidableEq, Repr

/-- Reinterpret a matrix (the output of `forward`) as a rank-2 tensor. -/
def matToTens (m : Mat) : Tens :=
  { shape := [m.length, (m.headD []).length], data := m.flatten }

/-- `t.squeeze()`: drop every axis of size 1. -/
def Tens.squeeze (t : Tens) : Tens :=
  { shape := t.shape.filter (fun d => d != 1), data := t.data }

/-- `t[i]`: index along the leading axis; raises on a rank-0 tensor and on
an out-of-range index. -/
def Tens.index (t : Tens) (i : Nat) : Option Tens :=
  match t.shape with
  | [] => none
  | d :: rest =>
    if i < d then
      some { shape := rest, data := (t.data.drop (i * rest.prod)).take rest.prod }
    else none

/-- `get_probs(model, x, y, device)` from `torch-test-model.ipynb`,
translated line by line: `model = model.to(device)`; `x = x.to(device)`;
`y = y.to(device)`; under `no_grad`, `output = model(x)` then
`output = output.squeeze()`; `return output, output[y]`. -/
def get_probs (ex : ℚ → ℚ) (bs : Nat) (model : TorchModule) (x : Loc Vec)
    (y : Loc Nat) (device : Device) : Option (TorchModule × Tens × Tens) :=
  let model1 := model.to device
  let x1 := x.to device
  let y1 := y.to device
  if model1.device = x1.device then
    match SimpleNet.forward ex bs model1.net x1.val with
    | none => none
    | some out =>
      let output := (matToTens out).squeeze
      match output.index y1.val with
      | none => none
      | some p => some (model1, output, p)
  else none

lemma forward_some (ex : ℚ → ℚ) (bs : Nat) (net : SimpleNet) (x : Vec)
    (hv : bs ≠ 0 ∧ x.length % bs = 0) :
    ∃ out, SimpleNet.forward ex bs net x = some out := by
  unfold SimpleNet.forward view
  rw [if_pos hv]
  exact ⟨_, rfl⟩

lemma forward_none (ex : ℚ → ℚ) (bs : Nat) (net : SimpleNet) (x : Vec)
    (hv : ¬(bs ≠ 0 ∧ x.length % bs = 0)) :
    SimpleNet.forward ex bs net x = none := by
  unfold SimpleNet.forward view
  rw [if_neg hv]

lemma trainBatch_ok (ex : ℚ → ℚ) (bs : Nat)
    (stepFn : SimpleNet → Vec → List Nat → SimpleNet) (device : Device)
    (m : TorchModule) (b : Batch) (hm : m.device = device)
    (hv : bs ≠ 0 ∧ b.1.val.length % bs = 0) :
    trainBatch ex bs stepFn device m b =
      ([Ev.dataTo device, Ev.targetTo device, Ev.zeroGrad,
        Ev.forwardPass device device device, Ev.lossNll, Ev.backward,
        Ev.optStep],
       some { m with net := stepFn m.net b.1.val b.2.val }) := by
  obtain ⟨out, hout⟩ := forward_some ex bs m.net b.1.val hv
  simp [trainBatch, Loc.to, hm, hout]

lemma trainLoop_ok (ex : ℚ → ℚ) (bs : Nat)
    (stepFn : SimpleNet → Vec → List Nat → SimpleNet) (device : Device) :
    ∀ (batches : List Batch) (m : TorchModule), m.device = device →
      (∀ b ∈ batches, bs ≠ 0 ∧ b.1.val.length % bs = 0) →
      ∃ net1, trainLoop ex bs stepFn device m batches =
        (batches.bind (fun _ =>
          [Ev.dataTo device, Ev.targetTo device, Ev.zeroGrad,
           Ev.forwardPass device device device, Ev.lossNll, Ev.backward,
           Ev.optStep]),
         some { m with net := net1 }) := by
  intro batches
  induction batches with
  | nil =>
    intro m hm hb
    exact ⟨m.net, by simp [trainLoop]⟩
  | cons b rest ih =>
    intro m hm hb
    have hv := hb b (List.mem_cons_self b rest)
    obtain ⟨net1, h1⟩ := ih { m with net := stepFn m.net b.1.val b.2.val }
      (by simpa using hm) (fun x hx => hb x (List.mem_cons_of_mem b hx))
    refine ⟨net1, ?_⟩
    simp [trainLoop, trainBatch_ok ex bs stepFn device m b hm hv, h1]

lemma train_ok (ex : ℚ → ℚ) (bs : Nat)
    (stepFn : SimpleNet → Vec → List Nat → SimpleNet) (device : Device)
    (m : TorchModule) (loader : List Batch) (hm : m.device = device)
    (hb : ∀ b ∈ loader, bs ≠ 0 ∧ b.1.val.length % bs = 0) :
    ∃ net1, train ex bs stepFn device m loader =
      (Ev.trainMode :: loader.bind (fun _ =>
        [Ev.dataTo device, Ev.targetTo device, Ev.zeroGrad,
         Ev.forwardPass device device device, Ev.lossNll, Ev.backward,
         Ev.optStep]),
       some { m with net := net1, training := true }) := by
  obtain ⟨net1, h1⟩ := trainLoop_ok ex bs stepFn device loader
    { m with training := true } (by simpa using hm) hb
  exact ⟨net1, by simp [train, h1]⟩

lemma testBatch_ok (ex : ℚ → ℚ) (bs : Nat) (device : Device)
    (m : TorchModule) (acc : ℚ × Nat) (b : Batch) (hm : m.device = device)
    (hv : bs ≠ 0 ∧ b.1.val.length % bs = 0) :
    ∃ acc2, testBatch ex bs device m acc b =
      ([Ev.dataTo device, Ev.targetTo device,
        Ev.forwardPass device device device, Ev.lossNll], some acc2) := by
  obtain ⟨out, hout⟩ := forward_some ex bs m.net b.1.val hv
  refine ⟨(acc.1 + nllLossSum out b.2.val,
           acc.2 + countCorrect (out.map (fun r => argmaxIdx r)) b.2.val), ?_⟩
  simp [testBatch, Loc.to, hm, hout]

lemma testLoop_ok (ex : ℚ → ℚ) (bs : Nat) (device : Device)
    (m : TorchModule) (hm : m.device = device) :
    ∀ (batches : List Batch) (acc : ℚ × Nat),
      (∀ b ∈ batches, bs ≠ 0 ∧ b.1.val.length % bs = 0) →
      ∃ acc1, testLoop ex bs device m acc batches =
        (batches.bind (fun _ =>
          [Ev.dataTo device, Ev.targetTo device,
           Ev.forwardPass device device device, Ev.lossNll]),
         some acc1) := by
  intro batches
  induction batches with
  | nil =>
    intro acc hb
    exact ⟨acc, by simp [testLoop]⟩
  | cons b rest ih =>
    intro acc hb
    obtain ⟨acc2, h2⟩ := testBatch_ok ex bs device m acc b hm
      (hb b (List.mem_cons_self b rest))
    obtain ⟨acc1, h1⟩ := ih acc2 (fun x hx => hb x (List.mem_cons_of_mem b hx))
    exact ⟨acc1, by simp [testLoop, h2, h1]⟩

lemma test_ok (ex : ℚ → ℚ) (bs : Nat) (device : Device) (m : TorchModule)
    (loader : List Batch) (datasetLen : Nat) (hm : m.device = device)
    (hb : ∀ b ∈ loader, bs ≠ 0 ∧ b.1.val.length % bs = 0) :
    ∃ acc1 : ℚ × Nat, test_v2 ex bs device m loader datasetLen =
      (Ev.evalMode :: Ev.noGradEnter ::
         (loader.bind (fun _ =>
           [Ev.dataTo device, Ev.targetTo device,
            Ev.forwardPass device device device, Ev.lossNll]) ++
          [Ev.noGradExit]),
       some ({ m with training := false }, acc1.1 / (datasetLen : ℚ), acc1.2)) := by
  obtain ⟨acc1, h1⟩ := testLoop_ok ex bs device { m with training := false }
    (by simpa using hm) loader (0, 0) hb
  exact ⟨acc1, by simp only [test_v2, h1]⟩

lemma runEpoch_ok (ex : ℚ → ℚ) (bs : Nat)
    (stepFn : SimpleNet → Vec → List Nat → SimpleNet) (device : Device)
    (trainLoader testLoader : List Batch) (datasetLen : Nat)
    (m : TorchModule) (epoch : Nat) (hm : m.device = device)
    (htr : ∀ b ∈ trainLoader, bs ≠ 0 ∧ b.1.val.length % bs = 0)
    (hte : ∀ b ∈ testLoader, bs ≠ 0 ∧ b.1.val.length % bs = 0) :
    ∃ net1, runEpoch ex bs stepFn device trainLoader testLoader datasetLen m epoch =
      (Ev.epochStart epoch ::
        ((Ev.trainMode :: trainLoader.bind (fun _ =>
           [Ev.dataTo device, Ev.targetTo device, Ev.zeroGrad,
            Ev.forwardPass device device device, Ev.lossNll, Ev.backward,
            Ev.optStep])) ++
         (Ev.evalMode :: Ev.noGradEnter ::
           (testLoader.bind (fun _ =>
             [Ev.dataTo device, Ev.targetTo device,
              Ev.forwardPass device device device, Ev.lossNll]) ++
            [Ev.noGradExit]))),
       some { m with net := net1, training := false }) := by
  obtain ⟨net1, h1⟩ := train_ok ex bs stepFn device m trainLoader hm htr
  obtain ⟨acc1, h2⟩ := test_ok ex bs device
    { m with net := net1, training := true } testLoader datasetLen
    (by simpa using hm) hte
  exact ⟨net1, by simp only [runEpoch, h1, h2]⟩

lemma epochLoop_ok (ex : ℚ → ℚ) (bs : Nat)
    (stepFn : SimpleNet → Vec → List Nat → SimpleNet) (device : Device)
    (trainLoader testLoader : List Batch) (datasetLen : Nat)
    (htr : ∀ b ∈ trainLoader, bs ≠ 0 ∧ b.1.val.length % bs = 0)
    (hte : ∀ b ∈ testLoader, bs ≠ 0 ∧ b.1.val.length % bs = 0) :
    ∀ (eps : List Nat) (m : TorchModule), m.device = device →
      ∃ m1, epochLoop ex bs stepFn device trainLoader testLoader datasetLen m eps =
        (eps.bind (fun ep =>
          Ev.epochStart ep ::
            ((Ev.trainMode :: trainLoader.bind (fun _ =>
               [Ev.dataTo device, Ev.targetTo device, Ev.zeroGrad,
                Ev.forwardPass device device device, Ev.lossNll, Ev.backward,
                Ev.optStep])) ++
             (Ev.evalMode :: Ev.noGradEnter ::
               (testLoader.bind (fun _ =>
                 [Ev.dataTo device, Ev.targetTo device,
                  Ev.forwardPass device device device, Ev.lossNll]) ++
                [Ev.noGradExit])))),
         some m1) := by
  intro eps
  induction eps with
  | nil =>
    intro m hm
    exact ⟨m, by simp [epochLoop]⟩
  | cons e rest ih =>
    intro m hm
    obtain ⟨net1, h1⟩ := runEpoch_ok ex bs stepFn device trainLoader testLoader
      datasetLen m e hm htr hte
    obtain ⟨m1, h2⟩ := ih { m with net := net1, training := false }
      (by simpa using hm)
    refine ⟨m1, ?_⟩
    simp only [epochLoop, h1, h2, List.cons_bind]

lemma trainBatch_badshape (ex : ℚ → ℚ) (bs : Nat)
    (stepFn : SimpleNet → Vec → List Nat → SimpleNet) (device : Device)
    (m : TorchModule) (b : Batch)
    (hv : ¬(bs ≠ 0 ∧ b.1.val.length % bs = 0)) :
    (trainBatch ex bs stepFn device m b).2 = none := by
  have hf := forward_none ex bs m.net b.1.val hv
  by_cases hd : m.device = device
  · simp [trainBatch, Loc.to, hf, hd]
  · simp [trainBatch, Loc.to, hf, hd]

lemma trainLoop_badshape (ex : ℚ → ℚ) (bs : Nat)
    (stepFn : SimpleNet → Vec → List Nat → SimpleNet) (device : Device) :
    ∀ (batches : List Batch) (m : TorchModule) (b : Batch), b ∈ batches →
      ¬(bs ≠ 0 ∧ b.1.val.length % bs = 0) →
      (trainLoop ex bs stepFn device m batches).2 = none := by
  intro batches
  induction batches with
  | nil =>
    intro m b hb hv
    exact absurd hb (List.not_mem_nil b)
  | cons a rest ih =>
    intro m b hb hv
    rcases List.mem_cons.mp hb with h | h
    · subst h
      have hsnd := trainBatch_badshape ex bs stepFn device m b hv
      cases hab : trainBatch ex bs stepFn device m b with
      | mk tr r =>
        rw [hab] at hsnd
        simp only at hsnd
        subst hsnd
        simp [trainLoop, hab]
    · cases hab : trainBatch ex bs stepFn device m a with
      | mk tr r =>
        cases r with
        | none => simp [trainLoop, hab]
        | some m2 => simp [trainLoop, hab, ih m2 b h hv]

lemma train_badshape (ex : ℚ → ℚ) (bs : Nat)
    (stepFn : SimpleNet → Vec → List Nat → SimpleNet) (device : Device)
    (m : TorchModule) (loader : List Batch) (b : Batch) (hb : b ∈ loader)
    (hv : ¬(bs ≠ 0 ∧ b.1.val.length % bs = 0)) :
    (train ex bs stepFn device m loader).2 = none := by
  have hsnd := trainLoop_badshape ex bs stepFn device loader
    { m with training := true } b hb hv
  cases hl : trainLoop ex bs stepFn device { m with training := true } loader with
  | mk tr r =>
    rw [hl] at hsnd
    simp only at hsnd
    subst hsnd
    simp [train, hl]

lemma trainBatch_forwardPass_dev (ex : ℚ → ℚ) (bs : Nat)
    (stepFn : SimpleNet → Vec → List Nat → SimpleNet) (device : Device)
    (m : TorchModule) (b : Batch) :
    ∀ e ∈ (trainBatch ex bs stepFn device m b).1, ∀ a c d,
      e = Ev.forwardPass a c d → a = device ∧ c = device ∧ d = device := by
  intro e he a c d hef
  subst hef
  simp only [trainBatch, Loc.to] at he
  by_cases hd : m.device = device
  · rw [if_pos hd] at he
    cases hf : SimpleNet.forward ex bs m.net b.1.val with
    | none =>
      rw [hf] at he
      simp at he
    | some out =>
      rw [hf] at he
      simp [hd] at he
      exact he
  · rw [if_neg hd] at he
    simp at he

lemma testBatch_forwardPass_dev (ex : ℚ → ℚ) (bs : Nat) (device : Device)
    (m : TorchModule) (acc : ℚ × Nat) (b : Batch) :
    ∀ e ∈ (testBatch ex bs device m acc b).1, ∀ a c d,
      e = Ev.forwardPass a c d → a = device ∧ c = device ∧ d = device := by
  intro e he a c d hef
  subst hef
  simp only [testBatch, Loc.to] at he
  by_cases hd : m.device = device
  · rw [if_pos hd] at he
    cases hf : SimpleNet.forward ex bs m.net b.1.val with
    | none =>
      rw [hf] at he
      simp at he
    | some out =>
      rw [hf] at he
      simp [hd] at he
      exact he
  · rw [if_neg hd] at he
    simp at he

lemma trainLoop_forwardPass_dev (ex : ℚ → ℚ) (bs : Nat)
    (stepFn : SimpleNet → Vec → List Nat → SimpleNet) (device : Device) :
    ∀ (batches : List Batch) (m : TorchModule),
      ∀ e ∈ (trainLoop ex bs stepFn device m batches).1, ∀ a c d,
        e = Ev.forwardPass a c d → a = device ∧ c = device ∧ d = device := by
  intro batches
  induction batches with
  | nil =>
    intro m e he
    simp [trainLoop] at he
  | cons b rest ih =>
    intro m e he a c d hef
    subst hef
    cases hab : trainBatch ex bs stepFn device m b with
    | mk tr r =>
      cases r with
      | none =>
        simp only [trainLoop, hab] at he
        exact trainBatch_forwardPass_dev ex bs stepFn device m b _
          (by rw [hab]; exact he) a c d rfl
      | some m2 =>
        simp only [trainLoop, hab] at he
        rcases List.mem_append.mp he with h1 | h2
        · exact trainBatch_forwardPass_dev ex bs stepFn device m b _
            (by rw [hab]; exact h1) a c d rfl
        · exact ih m2 _ h2 a c d rfl

lemma testLoop_forwardPass_dev (ex : ℚ → ℚ) (bs : Nat) (device : Device)
    (m : TorchModule) :
    ∀ (batches : List Batch) (acc : ℚ × Nat),
      ∀ e ∈ (testLoop ex bs device m acc batches).1, ∀ a c d,
        e = Ev.forwardPass a c d → a = device ∧ c = device ∧ d = device := by
  intro batches
  induction batches with
  | nil =>
    intro acc e he
    simp [testLoop] at he
  | cons b rest ih =>
    intro acc e he a c d hef
    subst hef
    cases hab : testBatch ex bs device m acc b with
    | mk tr r =>
      cases r with
      | none =>
        simp only [testLoop, hab] at he
        exact testBatch_forwardPass_dev ex bs device m acc b _
          (by rw [hab]; exact he) a c d rfl
      | some acc2 =>
        simp only [testLoop, hab] at he
        rcases List.mem_append.mp he with h1 | h2
        · exact testBatch_forwardPass_dev ex bs device m acc b _
            (by rw [hab]; exact h1) a c d rfl
        · exact ih acc2 _ h2 a c d rfl

lemma train_forwardPass_dev (ex : ℚ → ℚ) (bs : Nat)
    (stepFn : SimpleNet → Vec → List Nat → SimpleNet) (device : Device)
    (m : TorchModule) (loader : List Batch) :
    ∀ e ∈ (train ex bs stepFn device m loader).1, ∀ a c d,
      e = Ev.forwardPass a c d → a = device ∧ c = device ∧ d = device := by
  intro e he a c d hef
  subst hef
  cases hl : trainLoop ex bs stepFn device { m with training := true } loader with
  | mk tr r =>
    simp only [train, hl] at he
    simp at he
    exact trainLoop_forwardPass_dev ex bs stepFn device loader
      { m with training := true } _ (by rw [hl]; exact he) a c d rfl

lemma test_forwardPass_dev (ex : ℚ → ℚ) (bs : Nat) (device : Device)
    (m : TorchModule) (loader : List Batch) (datasetLen : Nat) :
    ∀ e ∈ (test_v2 ex bs device m loader datasetLen).1, ∀ a c d,
      e = Ev.forwardPass a c d → a = device ∧ c = device ∧ d = device := by
  intro e he a c d hef
  subst hef
  cases hl : testLoop ex bs device { m with training := false } (0, 0) loader with
  | mk tr r =>
    cases r with
    | none =>
      simp only [test_v2, hl] at he
      rw [List.mem_cons, List.mem_cons, List.mem_append, List.mem_singleton] at he
      rcases he with h | h | h | h
      · simp at h
      · simp at h
      · exact testLoop_forwardPass_dev ex bs device { m with training := false }
          loader (0, 0) _ (by rw [hl]; exact h) a c d rfl
      · simp at h
    | some acc =>
      simp only [test_v2, hl] at he
      rw [List.mem_cons, List.mem_cons, List.mem_append, List.mem_singleton] at he
      rcases he with h | h | h | h
      · simp at h
      · simp at h
      · exact testLoop_forwardPass_dev ex bs device { m with training := false }
          loader (0, 0) _ (by rw [hl]; exact h) a c d rfl
      · simp at h

/-- C1: Round-trip of the weights file.  The training notebook writes
`model.state_dict()` to `mnist_fashion_SimpleNet.pt`; the companion
notebook reads that file into a freshly constructed `SimpleNet`; loading
what was saved yields a model whose `fc1`/`fc2` weights and biases equal
the saved ones.  The file contents are the sole value passed between the
two notebooks. -/
theorem c1_weights_roundtrip (trained fresh : TorchModule) :
    (loadModelCell fresh (torchSave trained.net.state_dict)).map
        (fun m1 => (m1.net.fc1.weight, m1.net.fc1.bias,
                    m1.net.fc2.weight, m1.net.fc2.bias)) =
      some (trained.net.fc1.weight, trained.net.fc1.bias,
            trained.net.fc2.weight, trained.net.fc2.bias) := rfl

/-- C2: Device selection is the single conditional
`torch.device("cuda:0" if torch.cuda.is_available() else "cpu")`: the
string is `"cuda:0"` exactly when the availability check returns true and
`"cpu"` exactly when it returns false, and the resulting device value is
the first CUDA accelerator exactly in the former case. -/
theorem c2_device_selection :
    deviceArg true = "cuda:0" ∧ deviceArg false = "cpu" ∧
    torchDeviceOfString (deviceArg true) = some (Device.cuda 0) ∧
    torchDeviceOfString (deviceArg false) = some Device.cpu ∧
    chosenDevice true = Device.cuda 0 ∧ chosenDevice false = Device.cpu ∧
    (∀ avail, torchDeviceOfString (deviceArg avail) = some (chosenDevice avail)) := by
  refine ⟨rfl, rfl, by decide, by decide, rfl, rfl, ?_⟩
  intro avail
  cases avail <;> decide

/-- C4: `SimpleNet` is two linear layers plus an activation: `fc1` maps 784
features to 784 and `fc2` maps 784 to 10 (both as stored attributes and as
actual parameter shapes), and `forward` computes, in order, the reshape to
`(batch_size, -1)`, `fc1`, ReLU, `fc2`, then softmax over dimension 1, and
returns the softmax output. -/
theorem c4_simplenet_architecture :
    (∀ w1 b1 w2 b2,
      (SimpleNet.init w1 b1 w2 b2).fc1.in_features = 784 ∧
      (SimpleNet.init w1 b1 w2 b2).fc1.out_features = 784 ∧
      (SimpleNet.init w1 b1 w2 b2).fc2.in_features = 784 ∧
      (SimpleNet.init w1 b1 w2 b2).fc2.out_features = 10 ∧
      (SimpleNet.init w1 b1 w2 b2).fc1.weight.length = 784 ∧
      (SimpleNet.init w1 b1 w2 b2).fc1.bias.length = 784 ∧
      (SimpleNet.init w1 b1 w2 b2).fc2.weight.length = 10 ∧
      (SimpleNet.init w1 b1 w2 b2).fc2.bias.length = 10) ∧
    (∀ (ex : ℚ → ℚ) (bs : Nat) (net : SimpleNet) (x : Vec),
      SimpleNet.forward ex bs net x =
        (view bs x).map (fun rows => rows.map (fun r =>
          softmaxRow ex (net.fc2.apply (reluV (net.fc1.apply r)))))) := by
  constructor
  · intro w1 b1 w2 b2
    refine ⟨rfl, rfl, rfl, rfl, ?_, ?_, ?_, ?_⟩ <;>
      simp [SimpleNet.init, nnLinear]
  · intro ex bs net x
    unfold SimpleNet.forward
    cases h : view bs x with
    | none => rfl
    | some rows => simp [List.map_map, Function.comp]

/-- C8: The two successive cell definitions of
`test(model, device, test_loader)` in the training notebook perform the
identical computation on every model, device, loader and dataset size: the
shadowing redefinition does not change the program's behaviour. -/
theorem c8_test_redefinition_equal :
    ∀ (ex : ℚ → ℚ) (bs : Nat) (device : Device) (m : TorchModule)
      (loader : List Batch) (datasetLen : Nat),
      test_v1 ex bs device m loader datasetLen =
        test_v2 ex bs device m loader datasetLen := by
  intro ex bs device m loader datasetLen
  rfl

/-- A miniature concrete network with matching shapes for one-feature
inputs, used only to evaluate the embedding at concrete inputs. -/
def tinyNet : SimpleNet :=
  { fc1 := { in_features := 1, out_features := 1, weight := [[1]], bias := [0] }
    fc2 := { in_features := 1, out_features := 2, weight := [[1], [2]], bias := [0, 0] } }

/-- The miniature network wrapped as a module on the first CUDA device. -/
def tinyModule : TorchModule :=
  { net := tinyNet, device := Device.cuda 0, training := true }

/-- A trivial concrete optimizer update (identity). -/
def tinyStep : SimpleNet → Vec → List Nat → SimpleNet :=
  fun n _ _ => n

/-- A trivial concrete softmax exponential. -/
def oneFn : ℚ → ℚ :=
  fun _ => 1

/-- A one-element batch whose data reshapes under batch size 1. -/
def tinyBatch : Batch :=
  (⟨[1], Device.cpu⟩, ⟨[0], Device.cpu⟩)

/-- A batch whose data length 3 does not reshape under batch size 2. -/
def badBatch : Batch :=
  (⟨[1, 2, 3], Device.cpu⟩, ⟨[0], Device.cpu⟩)

/-- C3: For every batch of the training loader, one training step performs
exactly the sequence: move data to the device, move target to the device,
zero the optimizer's gradients, forward pass, negative-log-likelihood loss,
`backward()`, then `optimizer.step()` — with no other update event in
between; and the evaluation loop performs its entire per-batch computation
strictly between entering and exiting `torch.no_grad()`. -/
theorem c3_training_step_sequence (ex : ℚ → ℚ) (bs : Nat)
    (stepFn : SimpleNet → Vec → List Nat → SimpleNet) (device : Device)
    (m : TorchModule) (trainLoader testLoader : List Batch) (datasetLen : Nat)
    (hm : m.device = device)
    (htr : ∀ b ∈ trainLoader, bs ≠ 0 ∧ b.1.val.length % bs = 0)
    (hte : ∀ b ∈ testLoader, bs ≠ 0 ∧ b.1.val.length % bs = 0) :
    (train ex bs stepFn device m trainLoader).1 =
      Ev.trainMode :: trainLoader.bind (fun _ =>
        [Ev.dataTo device, Ev.targetTo device, Ev.zeroGrad,
         Ev.forwardPass device device device, Ev.lossNll, Ev.backward,
         Ev.optStep]) ∧
    (test_v2 ex bs device m testLoader datasetLen).1 =
      Ev.evalMode :: Ev.noGradEnter ::
        (testLoader.bind (fun _ =>
          [Ev.dataTo device, Ev.targetTo device,
           Ev.forwardPass device device device, Ev.lossNll]) ++
         [Ev.noGradExit]) := by
  obtain ⟨net1, h1⟩ := train_ok ex bs stepFn device m trainLoader hm htr
  obtain ⟨acc1, h2⟩ := test_ok ex bs device m testLoader datasetLen hm hte
  exact ⟨by rw [h1], by rw [h2]⟩

theorem c3_witness :
    (tinyModule.device = Device.cuda 0 ∧
     (∀ b ∈ [tinyBatch], (1 : Nat) ≠ 0 ∧ b.1.val.length % 1 = 0)) ∧
    ((train oneFn 1 tinyStep (Device.cuda 0) tinyModule [tinyBatch]).1 =
       Ev.trainMode :: [tinyBatch].bind (fun _ =>
         [Ev.dataTo (Device.cuda 0), Ev.targetTo (Device.cuda 0), Ev.zeroGrad,
          Ev.forwardPass (Device.cuda 0) (Device.cuda 0) (Device.cuda 0),
          Ev.lossNll, Ev.backward, Ev.optStep]) ∧
     (test_v2 oneFn 1 (Device.cuda 0) tinyModule [tinyBatch] 1).1 =
       Ev.evalMode :: Ev.noGradEnter ::
         ([tinyBatch].bind (fun _ =>
           [Ev.dataTo (Device.cuda 0), Ev.targetTo (Device.cuda 0),
            Ev.forwardPass (Device.cuda 0) (Device.cuda 0) (Device.cuda 0),
            Ev.lossNll]) ++
          [Ev.noGradExit])) :=
  ⟨⟨rfl, by decide⟩,
   c3_training_step_sequence oneFn 1 tinyStep (Device.cuda 0) tinyModule
     [tinyBatch] [tinyBatch] 1 rfl (by decide) (by decide)⟩

/-- C6: Consistent-device invariant: at every forward application of the
model recorded in the training loop's and the evaluation loop's event
traces, the model's parameters, the input data, and its target all reside
on the `device` the model was moved to. -/
theorem c6_consistent_device (ex : ℚ → ℚ) (bs : Nat)
    (stepFn : SimpleNet → Vec → List Nat → SimpleNet) (device : Device)
    (m : TorchModule) (trainLoader testLoader : List Batch) (datasetLen : Nat)
    (hm : m.device = device) :
    (∀ e ∈ (train ex bs stepFn device m trainLoader).1, ∀ a c d,
       e = Ev.forwardPass a c d → a = device ∧ c = device ∧ d = device) ∧
    (∀ e ∈ (test_v2 ex bs device m testLoader datasetLen).1, ∀ a c d,
       e = Ev.forwardPass a c d → a = device ∧ c = device ∧ d = device) :=
  ⟨train_forwardPass_dev ex bs stepFn device m trainLoader,
   test_forwardPass_dev ex bs device m testLoader datasetLen⟩

theorem c6_witness :
    tinyModule.device = Device.cuda 0 ∧
    Ev.forwardPass (Device.cuda 0) (Device.cuda 0) (Device.cuda 0) ∈
      (train oneFn 1 tinyStep (Device.cuda 0) tinyModule [tinyBatch]).1 ∧
    (Device.cuda 0 = Device.cuda 0 ∧ Device.cuda 0 = Device.cuda 0 ∧
     Device.cuda 0 = Device.cuda 0) :=
  ⟨rfl, by decide,
   (c6_consistent_device oneFn 1 tinyStep (Device.cuda 0) tinyModule
       [tinyBatch] [tinyBatch] 1 rfl).1
     (Ev.forwardPass (Device.cuda 0) (Device.cuda 0) (Device.cuda 0))
     (by decide) (Device.cuda 0) (Device.cuda 0) (Device.cuda 0) rfl⟩

/-- C7: The training driver performs the epochs `1, 2, 3, 4, 5` in
increasing order — `EPOCHS = 5` of them exactly — and in each epoch one
full pass over every batch of the training loader (one `train` call)
followed by one full pass over every batch of the test loader (one `test`
call), terminating because the loaders yield finitely many batches. -/
theorem c7_five_epochs (ex : ℚ → ℚ) (bs : Nat)
    (stepFn : SimpleNet → Vec → List Nat → SimpleNet) (device : Device)
    (trainLoader testLoader : List Batch) (datasetLen : Nat) (m : TorchModule)
    (hm : m.device = device)
    (htr : ∀ b ∈ trainLoader, bs ≠ 0 ∧ b.1.val.length % bs = 0)
    (hte : ∀ b ∈ testLoader, bs ≠ 0 ∧ b.1.val.length % bs = 0) :
    EPOCHS = 5 ∧
    List.range' 1 EPOCHS = [1, 2, 3, 4, 5] ∧
    (trainingDriver ex bs stepFn device trainLoader testLoader datasetLen m).1 =
      (List.range' 1 EPOCHS).bind (fun ep =>
        Ev.epochStart ep ::
          ((Ev.trainMode :: trainLoader.bind (fun _ =>
             [Ev.dataTo device, Ev.targetTo device, Ev.zeroGrad,
              Ev.forwardPass device device device, Ev.lossNll, Ev.backward,
              Ev.optStep])) ++
           (Ev.evalMode :: Ev.noGradEnter ::
             (testLoader.bind (fun _ =>
               [Ev.dataTo device, Ev.targetTo device,
                Ev.forwardPass device device device, Ev.lossNll]) ++
              [Ev.noGradExit])))) ∧
    (trainingDriver ex bs stepFn device trainLoader testLoader datasetLen m).2.isSome = true := by
  obtain ⟨m1, h1⟩ := epochLoop_ok ex bs stepFn device trainLoader testLoader
    datasetLen htr hte (List.range' 1 EPOCHS) m hm
  refine ⟨rfl, rfl, ?_, ?_⟩
  · simp only [trainingDriver, h1]
  · simp only [trainingDriver, h1, Option.isSome_some]

theorem c7_witness :
    (tinyModule.device = Device.cuda 0 ∧
     (∀ b ∈ [tinyBatch], (1 : Nat) ≠ 0 ∧ b.1.val.length % 1 = 0)) ∧
    (EPOCHS = 5 ∧
     List.range' 1 EPOCHS = [1, 2, 3, 4, 5] ∧
     (trainingDriver oneFn 1 tinyStep (Device.cuda 0) [tinyBatch] [tinyBatch] 1 tinyModule).1 =
       (List.range' 1 EPOCHS).bind (fun ep =>
         Ev.epochStart ep ::
           ((Ev.trainMode :: [tinyBatch].bind (fun _ =>
              [Ev.dataTo (Device.cuda 0), Ev.targetTo (Device.cuda 0), Ev.zeroGrad,
               Ev.forwardPass (Device.cuda 0) (Device.cuda 0) (Device.cuda 0),
               Ev.lossNll, Ev.backward, Ev.optStep])) ++
            (Ev.evalMode :: Ev.noGradEnter ::
              ([tinyBatch].bind (fun _ =>
                [Ev.dataTo (Device.cuda 0), Ev.targetTo (Device.cuda 0),
                 Ev.forwardPass (Device.cuda 0) (Device.cuda 0) (Device.cuda 0),
                 Ev.lossNll]) ++
               [Ev.noGradExit])))) ∧
     (trainingDriver oneFn 1 tinyStep (Device.cuda 0) [tinyBatch] [tinyBatch] 1 tinyModule).2.isSome = true) :=
  ⟨⟨rfl, by decide⟩,
   c7_five_epochs oneFn 1 tinyStep (Device.cuda 0) [tinyBatch] [tinyBatch] 1
     tinyModule rfl (by decide) (by decide)⟩

/-- C5: No operation in the notebooks catches or handles an exception:
loading the weights file when it is missing, calling `.cuda()` or
constructing `torch.cuda.IntTensor` when no accelerator is present, and a
shape mismatch in a forward pass all propagate as unhandled framework
errors — in particular a shape failure on any batch aborts the whole
training call with no fallback, retry, or recovery branch. -/
theorem c5_unhandled_exceptions (cudaAvailable : Bool) (ex : ℚ → ℚ) (bs : Nat)
    (stepFn : SimpleNet → Vec → List Nat → SimpleNet) (device : Device)
    (m mAny : TorchModule) (loader : List Batch) (b : Batch)
    (t : Loc (List Int)) (xs : List Int) (d : Device)
    (hav : cudaAvailable = false) (hb : b ∈ loader)
    (hv : ¬(bs ≠ 0 ∧ b.1.val.length % bs = 0)) :
    loadModelCell mAny none = none ∧
    Loc.cuda cudaAvailable t = none ∧
    cudaIntTensor cudaAvailable xs d = none ∧
    SimpleNet.forward ex bs m.net b.1.val = none ∧
    (train ex bs stepFn device m loader).2 = none := by
  subst hav
  exact ⟨rfl, rfl, rfl, forward_none ex bs m.net b.1.val hv,
         train_badshape ex bs stepFn device m loader b hb hv⟩

theorem c5_witness :
    (false = false ∧ badBatch ∈ [badBatch] ∧
     ¬((2 : Nat) ≠ 0 ∧ badBatch.1.val.length % 2 = 0)) ∧
    (loadModelCell tinyModule none = none ∧
     Loc.cuda false X_train = none ∧
     cudaIntTensor false [30, 40, 50] (Device.cuda 0) = none ∧
     SimpleNet.forward oneFn 2 tinyModule.net badBatch.1.val = none ∧
     (train oneFn 2 tinyStep (Device.cuda 0) tinyModule [badBatch]).2 = none) :=
  ⟨⟨rfl, by decide, by decide⟩,
   c5_unhandled_exceptions false oneFn 2 tinyStep (Device.cuda 0) tinyModule
     tinyModule [badBatch] badBatch X_train [30, 40, 50] (Device.cuda 0)
     rfl (by decide) (by decide)⟩

/-- The miniature module after `model.eval()`. -/
def tinyModuleEval : TorchModule :=
  { net := tinyNet, device := Device.cuda 0, training := false }

lemma tiny_test_eval :
    (test_v2 oneFn 1 (Device.cuda 0) tinyModule [tinyBatch] 1).2 =
      some (tinyModuleEval, -(1 : ℚ)/2, 1) := by
  norm_num [test_v2, testLoop, testBatch, Loc.to, SimpleNet.forward, view,
    LinearLayer.apply, reluV, softmaxRow, nllLossSum, nllLossMean, argmaxIdx,
    countCorrect, dot, tinyModule, tinyModuleEval, tinyNet, tinyBatch, oneFn,
    List.range_succ, Function.comp, List.enum, List.enumFrom, List.foldl]

lemma tiny_get_probs_eval :
    get_probs oneFn 1 tinyModule ⟨[1], Device.cpu⟩ ⟨0, Device.cpu⟩ (Device.cuda 0) =
      some (tinyModule, ⟨[2], [1/2, 1/2]⟩, ⟨[], [1/2]⟩) := by
  norm_num [get_probs, TorchModule.to, Loc.to, SimpleNet.forward, view,
    LinearLayer.apply, reluV, softmaxRow, dot, tinyModule, tinyNet, oneFn,
    matToTens, Tens.squeeze, Tens.index, List.range_succ, Function.comp,
    List.replicate, List.take_succ_cons, List.take_zero, List.drop_succ_cons,
    List.drop_zero]
  rfl

/-- C9: Evaluation never modifies the model: whenever
`test(model, device, test_loader)` or `get_probs(model, x, y, device)`
completes, the parameters (`fc1` and `fc2` weights and biases) of the
model it worked on are exactly those of the model passed in. -/
theorem c9_evaluation_frame (ex : ℚ → ℚ) (bs : Nat) (device : Device)
    (m : TorchModule) (loader : List Batch) (datasetLen : Nat)
    (x : Loc Vec) (y : Loc Nat) :
    (∀ m1 l c, (test_v2 ex bs device m loader datasetLen).2 = some (m1, l, c) →
       m1.net = m.net) ∧
    (∀ m1 out p, get_probs ex bs m x y device = some (m1, out, p) →
       m1.net = m.net) := by
  constructor
  · intro m1 l c h
    cases hl : testLoop ex bs device { m with training := false } (0, 0) loader with
    | mk tr r =>
      cases r with
      | none =>
        simp only [test_v2, hl] at h
        exact Option.noConfusion h
      | some acc =>
        simp only [test_v2, hl, Option.some.injEq, Prod.mk.injEq] at h
        rw [← h.1]
  · intro m1 out p h
    simp only [get_probs, TorchModule.to, Loc.to] at h
    rw [if_true] at h
    split at h
    · exact Option.noConfusion h
    · split at h
      · exact Option.noConfusion h
      · simp only [Option.some.injEq, Prod.mk.injEq] at h
        rw [← h.1]

theorem c9_witness :
    ((test_v2 oneFn 1 (Device.cuda 0) tinyModule [tinyBatch] 1).2 =
       some (tinyModuleEval, -(1 : ℚ)/2, 1) ∧
     get_probs oneFn 1 tinyModule ⟨[1], Device.cpu⟩ ⟨0, Device.cpu⟩ (Device.cuda 0) =
       some (tinyModule, ⟨[2], [1/2, 1/2]⟩, ⟨[], [1/2]⟩)) ∧
    tinyModuleEval.net = tinyModule.net ∧
    tinyModule.net = tinyModule.net :=
  ⟨⟨tiny_test_eval, tiny_get_probs_eval⟩,
   (c9_evaluation_frame oneFn 1 (Device.cuda 0) tinyModule [tinyBatch] 1
       ⟨[1], Device.cpu⟩ ⟨0, Device.cpu⟩).1
     tinyModuleEval (-(1 : ℚ)/2) 1 tiny_test_eval,
   (c9_evaluation_frame oneFn 1 (Device.cuda 0) tinyModule [tinyBatch] 1
       ⟨[1], Device.cpu⟩ ⟨0, Device.cpu⟩).2
     tinyModule ⟨[2], [1/2, 1/2]⟩ ⟨[], [1/2]⟩ tiny_get_probs_eval⟩

/-- C10: For every model, input, label and device, when
`get_probs(model, x, y, device)` completes it returns a pair whose first
component is the squeezed output of the model's forward pass on `x` (after
the moves to `device`, which leave the payloads unchanged) and whose second
component is the first component indexed at the ground-truth class `y`. -/
theorem c10_get_probs_pair (ex : ℚ → ℚ) (bs : Nat) (model : TorchModule)
    (x : Loc Vec) (y : Loc Nat) (device : Device) (m1 : TorchModule)
    (out p : Tens)
    (h : get_probs ex bs model x y device = some (m1, out, p)) :
    (∃ raw, SimpleNet.forward ex bs model.net x.val = some raw ∧
       out = (matToTens raw).squeeze) ∧
    Tens.index out y.val = some p := by
  simp only [get_probs, TorchModule.to, Loc.to] at h
  rw [if_true] at h
  split at h
  · exact Option.noConfusion h
  · rename_i out2 hf
    split at h
    · exact Option.noConfusion h
    · rename_i p2 hi
      simp only [Option.some.injEq, Prod.mk.injEq] at h
      obtain ⟨h1, h2, h3⟩ := h
      refine ⟨⟨out2, hf, h2.symm⟩, ?_⟩
      rw [← h2, ← h3]
      exact hi

theorem c10_witness :
    get_probs oneFn 1 tinyModule ⟨[1], Device.cpu⟩ ⟨0, Device.cpu⟩ (Device.cuda 0) =
      some (tinyModule, ⟨[2], [1/2, 1/2]⟩, ⟨[], [1/2]⟩) ∧
    ((∃ raw, SimpleNet.forward oneFn 1 tinyModule.net [1] = some raw ∧
        (⟨[2], [1/2, 1/2]⟩ : Tens) = (matToTens raw).squeeze) ∧
     Tens.index ⟨[2], [1/2, 1/2]⟩ 0 = some ⟨[], [1/2]⟩) :=
  ⟨tiny_get_probs_eval,
   c10_get_probs_pair oneFn 1 tinyModule ⟨[1], Device.cpu⟩ ⟨0, Device.cpu⟩
     (Device.cuda 0) tinyModule ⟨[2], [1/2, 1/2]⟩ ⟨[], [1/2]⟩
     tiny_get_probs_eval⟩
